import Mathlib

/-!
# Verification of the `vite-plugin-es-toolkit` transform (src/index.ts)

This file gives a shallow embedding of the plugin's single source file.
Strings are modelled as `List Char` (`Str`); the three import-rewriting
regular expressions are modelled as deterministic character-level matchers
(the three regexes are simple enough that greedy maximal-munch scanning,
with the one backtracking case of the named-imports character class,
is exact); JavaScript's global `String.replace` is modelled as a
leftmost, non-overlapping scan that does not rescan replacement text.
JavaScript `split`, `trim`, `includes` and `Array.prototype` helpers are
modelled directly on `List Char`.
-/

namespace ViteEsToolkit

/-- Model of JavaScript strings: a list of characters. -/
abbrev Str := List Char

/-- Decidable equality for `Except`, used to evaluate the transform on
concrete inputs. -/
instance {ε α : Type} [DecidableEq ε] [DecidableEq α] : DecidableEq (Except ε α) :=
  fun x y =>
    match x, y with
    | .error a, .error b =>
      if h : a = b then .isTrue (by rw [h]) else .isFalse (by intro he; cases he; exact h rfl)
    | .ok a, .ok b =>
      if h : a = b then .isTrue (by rw [h]) else .isFalse (by intro he; cases he; exact h rfl)
    | .error _, .ok _ => .isFalse (by intro he; cases he)
    | .ok _, .error _ => .isFalse (by intro he; cases he)

/-- JavaScript `\s` (WhiteSpace ∪ LineTerminator): the same set is used by
`String.prototype.trim`. -/
def isJsWs (c : Char) : Bool :=
  c = ' ' || c = '\t' || c = '\n' || c = '\r' || c = '\x0b' || c = '\x0c' ||
  c = '\xa0' || c = '\u1680' || ('\u2000' ≤ c && c ≤ '\u200a') ||
  c = '\u2028' || c = '\u2029' || c = '\u202f' || c = '\u205f' ||
  c = '\u3000' || c = '\ufeff'

/-- JavaScript `\w`: ASCII letters, digits and underscore. -/
def isWordChar (c : Char) : Bool :=
  c.isAlpha || c.isDigit || c = '_'

/-- The character class `[\w( as \w)\s,]` of `namedImportsRegex`:
word characters, parentheses, whitespace and comma (`a`, `s` are already
word characters). -/
def isNamedClassChar (c : Char) : Bool :=
  isWordChar c || isJsWs c || c = '(' || c = ')' || c = ','

/-- A quote character, `['"]` in the regexes (39 is the code point of the
single quote). -/
def isQuoteCh (c : Char) : Bool :=
  c.toNat = 39 || c = '"'

/-- Consume an exact literal at the front of the input; return the rest. -/
def lit : Str → Str → Option Str
  | [], s => some s
  | _ :: _, [] => none
  | p :: ps, c :: cs => if c = p then lit ps cs else none

/-- Greedy character-class run: `(s.takeWhile p, s.dropWhile p)`. -/
def spanW (p : Char → Bool) (s : Str) : Str × Str :=
  (s.takeWhile p, s.dropWhile p)

/-- Boolean prefix test on character lists (JS `startsWith`). -/
def isPre : Str → Str → Bool
  | [], _ => true
  | _ :: _, [] => false
  | p :: ps, c :: cs => p = c && isPre ps cs

/-- JS `String.prototype.includes`: substring containment. -/
def isSubstr (pat : Str) : Str → Bool
  | [] => pat.isEmpty
  | c :: rest => isPre pat (c :: rest) || isSubstr pat rest

/-- JS `String.prototype.split` with a single-character separator. -/
def splitOnChar (sep : Char) : Str → List Str
  | [] => [[]]
  | c :: rest =>
    if c = sep then [] :: splitOnChar sep rest
    else
      match splitOnChar sep rest with
      | h :: t => (c :: h) :: t
      | [] => [[c]]

/-- JS `String.prototype.split(' as ')`: split at each leftmost,
non-overlapping occurrence of the four-character separator `" as "`. -/
def splitAs : Str → List Str
  | [] => [[]]
  | ' ' :: 'a' :: 's' :: ' ' :: rest => [] :: splitAs rest
  | c :: rest =>
    match splitAs rest with
    | h :: t => (c :: h) :: t
    | [] => [[c]]

/-- Drop trailing JS whitespace. -/
def dropTrailWs (s : Str) : Str :=
  (s.reverse.dropWhile isJsWs).reverse

/-- JS `String.prototype.trim`. -/
def jsTrim (s : Str) : Str :=
  dropTrailWs (s.dropWhile isJsWs)

/-- JS `Array.prototype.join(sep)`. -/
def joinSep (sep : Str) : List Str → Str
  | [] => []
  | [x] => x
  | x :: xs => x ++ sep ++ joinSep sep xs

end ViteEsToolkit

namespace ViteEsToolkit

/-- The parsed form of one named-import token (source type `NamedImport`). -/
structure NamedImport where
  actualName : Str
  customName : Str
deriving DecidableEq, Repr

/-- `isSupportedFunction` from the source: membership of the externally
supplied supported-function set (`Object.keys(esToolkitCompat)` in the
plugin; modelled as an opaque list parameter, as the spec prescribes). -/
def isSupportedFunction (supported : List Str) (name : Str) : Bool :=
  supported.contains name

/-- `isUnsupportedFunction`: the logical negation of `isSupportedFunction`. -/
def isUnsupportedFunction (supported : List Str) (name : Str) : Bool :=
  !(isSupportedFunction supported name)

/-- `warnUnsupportedFunction`: the advisory warning text
`Unsupported lodash function{s}: <comma-separated names>`. -/
def warnUnsupportedFunction (names : List Str) : Str :=
  "Unsupported lodash function".data ++
    (if names.length > 1 then "s".data else []) ++ ": ".data ++
    joinSep ", ".data names

/-- `parseNamedImport` from the source: split the token on `' as '`; the
first segment is `actualName`, `customName` is the second segment when it
is present and non-empty (`customName || actualName`), and an empty
`actualName` raises `Invalid named import`. -/
def parseNamedImport (namedImportName : Str) : Except String NamedImport :=
  let parts := splitAs namedImportName
  let actualName := parts.headD []
  let customName := parts.getD 1 []
  if actualName.isEmpty then .error "Invalid named import"
  else .ok { actualName := actualName
             customName := if customName.isEmpty then actualName else customName }

/-- `renderNamedImport` from the source. -/
def renderNamedImport (ni : NamedImport) : Str :=
  if ni.actualName = ni.customName then ni.actualName
  else ni.actualName ++ " as ".data ++ ni.customName

/-- `renderNamedImports` from the source: render each token and join with
`", "`, in order. -/
def renderNamedImports (namedImports : List NamedImport) : Str :=
  joinSep ", ".data (namedImports.map renderNamedImport)

end ViteEsToolkit

namespace ViteEsToolkit

/-- The shared tail `\s+from\s+['"]lodash['"]` of `defaultImportRegex` and
`namedImportsRegex`; returns the rest of the input after the match. -/
def matchFromLodashTail (s : Str) : Option Str :=
  let (w1, s1) := spanW isJsWs s
  if w1.isEmpty then none else
  match lit "from".data s1 with
  | none => none
  | some s2 =>
    let (w2, s3) := spanW isJsWs s2
    if w2.isEmpty then none else
    match s3 with
    | c :: s4 =>
      if isQuoteCh c then
        match lit "lodash".data s4 with
        | none => none
        | some s5 =>
          match s5 with
          | c2 :: s6 => if isQuoteCh c2 then some s6 else none
          | [] => none
      else none
    | [] => none

/-- `defaultImportRegex = /import\s+(\w+)\s+from\s+['"]lodash['"]/gm`
tried at the front of `s`: on success, the captured bound name and the
input remaining after the match.  All character classes of the regex are
disjoint from the literals that follow them, so greedy maximal-munch
scanning is exactly the regex's backtracking semantics. -/
def matchDefaultImportAt (s : Str) : Option (Str × Str) :=
  match lit "import".data s with
  | none => none
  | some s1 =>
    let (w1, s2) := spanW isJsWs s1
    if w1.isEmpty then none else
    let (name, s3) := spanW isWordChar s2
    if name.isEmpty then none else
    match matchFromLodashTail s3 with
    | none => none
    | some rest => some (name, rest)

/-- `namedImportsRegex = /import\s+\{\s*([\w( as \w)\s,]+)\s*\}\s+from\s+['"]lodash['"]/gm`
tried at the front of `s`: on success, the captured raw token list and the
remaining input.  Because JS `\s` is contained in the bracketed class, the
greedy `\s*` swallows the leading whitespace and the class run must end
exactly at `}`; the one real backtracking case is a capture consisting of
whitespace only, where the engine gives back a single whitespace character
from `\s*` (so the capture is the last whitespace character before `}`). -/
def matchNamedImportsAt (s : Str) : Option (Str × Str) :=
  match lit "import".data s with
  | none => none
  | some s1 =>
    let (w1, s2) := spanW isJsWs s1
    if w1.isEmpty then none else
    match s2 with
    | '\x7b' :: s3 =>
      let (w2, s4) := spanW isJsWs s3
      let (cls, s5) := spanW isNamedClassChar s4
      if cls.isEmpty then
        match s5 with
        | '\x7d' :: s6 =>
          match w2.getLast? with
          | some cw =>
            match matchFromLodashTail s6 with
            | none => none
            | some rest => some ([cw], rest)
          | none => none
        | _ => none
      else
        match s5 with
        | '\x7d' :: s6 =>
          match matchFromLodashTail s6 with
          | none => none
          | some rest => some (cls, rest)
        | _ => none
    | _ => none

/-- `defaultSingleImportRegex = /import\s+(\w+)\s+from\s+['"]lodash\/(\w+)(\.js)?['"]/gm`
tried at the front of `s`: on success, the captured bound name, the
captured subpath symbol, and the remaining input.  The optional `(\.js)?`
is greedy: `.js` is consumed exactly when it is followed by a quote
(if `.js` is present but not quote-terminated, the fallback to the empty
alternative makes the quote meet `.` and the match fails, as here). -/
def matchSingleImportAt (s : Str) : Option (Str × Str × Str) :=
  match lit "import".data s with
  | none => none
  | some s1 =>
    let (w1, s2) := spanW isJsWs s1
    if w1.isEmpty then none else
    let (name, s3) := spanW isWordChar s2
    if name.isEmpty then none else
    let (w2, s4) := spanW isJsWs s3
    if w2.isEmpty then none else
    match lit "from".data s4 with
    | none => none
    | some s5 =>
      let (w3, s6) := spanW isJsWs s5
      if w3.isEmpty then none else
      match s6 with
      | c :: s7 =>
        if isQuoteCh c then
          match lit "lodash/".data s7 with
          | none => none
          | some s8 =>
            let (sym, s9) := spanW isWordChar s8
            if sym.isEmpty then none else
            match s9 with
            | '.' :: 'j' :: 's' :: q :: rest =>
              if isQuoteCh q then some (name, sym, rest) else none
            | q2 :: rest2 => if isQuoteCh q2 then some (name, sym, rest2) else none
            | [] => none
        else none
      | [] => none

/-- One match of the name-scoped usage regex `\b<name>\.\w+` tried at the
front of `s` (the word boundary is checked by the caller): the matched
text and the remaining input. -/
def tryUsageAt (name : Str) (s : Str) : Option (Str × Str) :=
  match lit name s with
  | none => none
  | some s1 =>
    match s1 with
    | '.' :: s2 =>
      let (sym, rest) := spanW isWordChar s2
      if sym.isEmpty then none else some (name ++ '.' :: sym, rest)
    | _ => none

/-- The global scan of `new RegExp('\\b' + name + '\\.\\w+', 'g')`:
leftmost, non-overlapping matches, each preceded by a word boundary.
`prev` is the character before the current position (`none` at the start
of the text); fuel bounds the recursion and `s.length` is always enough. -/
def findUsagesF (name : Str) : Nat → Option Char → Str → List Str
  | 0, _, _ => []
  | _ + 1, _, [] => []
  | fuel + 1, prev, c :: rest =>
    let boundary := match prev with
      | none => true
      | some p => !(isWordChar p)
    if boundary then
      match tryUsageAt name (c :: rest) with
      | some (m, after) => m :: findUsagesF name fuel m.getLast? after
      | none => findUsagesF name fuel (some c) rest
    else findUsagesF name fuel (some c) rest

/-- `srcWithReplacedImports.match(new RegExp('\\b' + name + '\\.\\w+', 'g'))`,
as a list of matched strings (the empty list models a `null` result). -/
def findUsages (name s : Str) : List Str :=
  findUsagesF name s.length none s

/-- `usage.split('.')[1] || ''` from the default-import callback. -/
def usedFunctionOf (u : Str) : Str :=
  let x := (splitOnChar '.' u).getD 1 []
  if x.isEmpty then [] else x

/-- The `defaultImportRegex` replacement callback (source lines 94-116):
`ctx` is the string being scanned (the whole pass input: the JS closure
reads `srcWithReplacedImports`, which is not reassigned until the pass
finishes), `matched` the matched statement text, `name` the captured
bound name.  Returns the replacement text and the warnings emitted. -/
def defaultImportHandler (supported : List Str) (ctx matched name : Str) :
    Str × List Str :=
  let globalImportUsages := findUsages name ctx
  if globalImportUsages.isEmpty then (matched, [])
  else
    let usedFunctions := globalImportUsages.map usedFunctionOf
    let unsupportedFunctions := usedFunctions.filter (isUnsupportedFunction supported)
    if !unsupportedFunctions.isEmpty then
      (matched, [warnUnsupportedFunction unsupportedFunctions])
    else
      ("import \x7b * as ".data ++ name ++ " \x7d from 'es-toolkit/compat'".data, [])

/-- `rawNamedImportNames.split(',').map(trim).filter(Boolean)` from the
named-imports callback. -/
def namedTokens (raw : Str) : List Str :=
  ((splitOnChar ',' raw).map jsTrim).filter (fun t => !t.isEmpty)

/-- `namedImportNames.map(parseNamedImport)`: JS `map` over a throwing
function propagates the first raised error. -/
def mapParse : List Str → Except String (List NamedImport)
  | [] => .ok []
  | t :: ts =>
    match parseNamedImport t with
    | .error e => .error e
    | .ok ni =>
      match mapParse ts with
      | .error e => .error e
      | .ok rest => .ok (ni :: rest)

/-- The `namedImportsRegex` replacement callback (source lines 133-160):
parse the comma-separated tokens, partition by support, and rebuild the
statement (split into two statements when both groups are non-empty). -/
def namedImportsHandler (supported : List Str) (matched raw : Str) :
    Except String (Str × List Str) :=
  match mapParse (namedTokens raw) with
  | .error e => .error e
  | .ok parsedNamedImportNames =>
    let currentSupportedFunctions :=
      parsedNamedImportNames.filter (fun ni => isSupportedFunction supported ni.actualName)
    let unsupportedFunctions :=
      parsedNamedImportNames.filter (fun ni => isUnsupportedFunction supported ni.actualName)
    if !unsupportedFunctions.isEmpty then
      let w := warnUnsupportedFunction (unsupportedFunctions.map (fun ni => ni.actualName))
      if currentSupportedFunctions.isEmpty then .ok (matched, [w])
      else
        .ok ("import \x7b ".data ++ renderNamedImports currentSupportedFunctions ++
             " \x7d from 'es-toolkit/compat';import \x7b ".data ++
             renderNamedImports unsupportedFunctions ++ " \x7d from 'lodash'".data, [w])
    else
      .ok ("import \x7b ".data ++ renderNamedImports currentSupportedFunctions ++
           " \x7d from 'es-toolkit/compat'".data, [])

/-- The `defaultSingleImportRegex` replacement callback (source lines
182-194). -/
def singleImportHandler (supported : List Str)
    (matched customNamedImportName actualNamedImportName : Str) : Str × List Str :=
  if isUnsupportedFunction supported actualNamedImportName then
    (matched, [warnUnsupportedFunction [actualNamedImportName]])
  else if actualNamedImportName = customNamedImportName then
    ("import \x7b ".data ++ actualNamedImportName ++
     " \x7d from 'es-toolkit/compat'".data, [])
  else
    ("import \x7b ".data ++ actualNamedImportName ++ " as ".data ++
     customNamedImportName ++ " \x7d from 'es-toolkit/compat'".data, [])

end ViteEsToolkit

namespace ViteEsToolkit

/-- Global-replace scan for `defaultImportRegex` (first pass): leftmost,
non-overlapping matches over the pass input; replacement text is not
rescanned; `ctx` is the whole pass input seen by every callback.  `fuel`
bounds the recursion; `s.length` is always enough since every match
consumes at least one character. -/
def scan1F (supported : List Str) (ctx : Str) : Nat → Str → Str × List Str
  | 0, s => (s, [])
  | _ + 1, [] => ([], [])
  | fuel + 1, c :: rest =>
    match matchDefaultImportAt (c :: rest) with
    | some (name, after) =>
      let matched := (c :: rest).take ((c :: rest).length - after.length)
      let (repl, ws) := defaultImportHandler supported ctx matched name
      let (out, ws2) := scan1F supported ctx fuel after
      (repl ++ out, ws ++ ws2)
    | none =>
      let (out, ws) := scan1F supported ctx fuel rest
      (c :: out, ws)

/-- Global-replace scan for `namedImportsRegex` (second pass); the
callback can raise the `Invalid named import` parsing error, which
propagates. -/
def scan2F (supported : List Str) : Nat → Str → Except String (Str × List Str)
  | 0, s => .ok (s, [])
  | _ + 1, [] => .ok ([], [])
  | fuel + 1, c :: rest =>
    match matchNamedImportsAt (c :: rest) with
    | some (raw, after) =>
      let matched := (c :: rest).take ((c :: rest).length - after.length)
      match namedImportsHandler supported matched raw with
      | .error e => .error e
      | .ok (repl, ws) =>
        match scan2F supported fuel after with
        | .error e => .error e
        | .ok (out, ws2) => .ok (repl ++ out, ws ++ ws2)
    | none =>
      match scan2F supported fuel rest with
      | .error e => .error e
      | .ok (out, ws) => .ok (c :: out, ws)

/-- Global-replace scan for `defaultSingleImportRegex` (third pass). -/
def scan3F (supported : List Str) : Nat → Str → Str × List Str
  | 0, s => (s, [])
  | _ + 1, [] => ([], [])
  | fuel + 1, c :: rest =>
    match matchSingleImportAt (c :: rest) with
    | some (name, sym, after) =>
      let matched := (c :: rest).take ((c :: rest).length - after.length)
      let (repl, ws) := singleImportHandler supported matched name sym
      let (out, ws2) := scan3F supported fuel after
      (repl ++ out, ws ++ ws2)
    | none =>
      let (out, ws) := scan3F supported fuel rest
      (c :: out, ws)

/-- First pass: `srcWithReplacedImports.replace(defaultImportRegex, ...)`. -/
def pass1 (supported : List Str) (s : Str) : Str × List Str :=
  scan1F supported s s.length s

/-- Second pass: `srcWithReplacedImports.replace(namedImportsRegex, ...)`. -/
def pass2 (supported : List Str) (s : Str) : Except String (Str × List Str) :=
  scan2F supported s.length s

/-- Third pass: `srcWithReplacedImports.replace(defaultSingleImportRegex, ...)`. -/
def pass3 (supported : List Str) (s : Str) : Str × List Str :=
  scan3F supported s.length s

/-- The `{ code, map }` object returned by the transform; `map` is always
`none`, modelling the literal `null` source map. -/
structure TransformResult where
  code : String
  map : Option String
deriving DecidableEq, Repr

/-- The `transform(src)` method (source lines 77-202): `Option` models the
`undefined` "no transformation" return, the `List String` collects the
`console.warn` advisory output in emission order, and `Except` carries the
`Invalid named import` error that the named-imports pass can raise. -/
def transform (supported : List String) (src : String) :
    Except String (Option TransformResult × List String) :=
  if isSubstr "lodash".data src.data then
    let supportedL := supported.map String.data
    let (s1, w1) := pass1 supportedL src.data
    match pass2 supportedL s1 with
    | .error e => .error e
    | .ok (s2, w2) =>
      let (s3, w3) := pass3 supportedL s2
      .ok (some { code := String.mk s3, map := none }, (w1 ++ w2 ++ w3).map String.mk)
  else .ok (none, [])

/-- The plugin object shape returned by `viteEsToolkitPlugin`. -/
structure Plugin where
  name : String
  transform : String → String → Except String (Option TransformResult × List String)

/-- `viteEsToolkitPlugin()`: the returned plugin object.  The `transform`
method is declared with `(src, id)` but its implementation binds only
`src`; the supported-function set is the externally supplied collection. -/
def viteEsToolkitPlugin (supported : List String) : Plugin :=
  { name := "vite:es-toolkit"
    transform := fun src _id => transform supported src }

end ViteEsToolkit

/-!
## Supporting lemmas

Structural facts about `splitAs`, `jsTrim` and `parseNamedImport`, and the
totality of the named-imports pass.
-/

namespace ViteEsToolkit

theorem splitAs_ne_nil (s : Str) : splitAs s ≠ [] := by
  rw [splitAs.eq_def]
  split
  · simp
  · simp
  · split <;> simp

theorem splitAs_cons_eq (a : Char) (b : Str)
    (hns : ∀ rest, a = ' ' → b ≠ 'a' :: 's' :: ' ' :: rest) :
    splitAs (a :: b) =
      match splitAs b with
      | h :: t => (a :: h) :: t
      | [] => [[a]] := by
  rw [splitAs.eq_def]
  split
  · rename_i heq
    exact absurd heq (by simp)
  · rename_i rest heq
    injection heq with h1 h2
    exact absurd h2 (hns rest h1)
  · rename_i c rest heq
    injection heq with h1 h2
    subst h1; subst h2
    rfl

end ViteEsToolkit

namespace ViteEsToolkit

theorem dropWhile_head_false (p : Char → Bool) (s : Str) (c : Char) (l : Str)
    (h : s.dropWhile p = c :: l) : p c = false := by
  induction s with
  | nil => simp at h
  | cons a as ih =>
    rw [List.dropWhile_cons] at h
    by_cases hp : p a
    · rw [if_pos hp] at h
      exact ih h
    · rw [if_neg hp] at h
      injection h with h1 _
      subst h1
      simpa using hp

theorem dropTrailWs_append (x : Str) : ∃ t, x = dropTrailWs x ++ t := by
  refine ⟨(x.reverse.takeWhile isJsWs).reverse, ?_⟩
  unfold dropTrailWs
  conv_lhs => rw [← x.reverse_reverse,
    ← List.takeWhile_append_dropWhile (p := isJsWs) (l := x.reverse)]
  rw [List.reverse_append]

theorem jsTrim_head_false (s : Str) (c : Char) (l : Str) (h : jsTrim s = c :: l) :
    isJsWs c = false := by
  unfold jsTrim at h
  obtain ⟨t, ht⟩ := dropTrailWs_append (s.dropWhile isJsWs)
  rw [h] at ht
  exact dropWhile_head_false isJsWs s c (l ++ t) (by rw [ht]; simp)

theorem parseNamedImport_isOk_of_ne_space (c : Char) (l : Str) (hc : c ≠ ' ') :
    ∃ ni, parseNamedImport (c :: l) = .ok ni := by
  have hcons := splitAs_cons_eq c l (fun rest h1 _ => hc h1)
  unfold parseNamedImport
  rcases hsp : splitAs l with _ | ⟨h, t⟩
  · exact absurd hsp (splitAs_ne_nil l)
  · rw [hcons, hsp]
    simp

end ViteEsToolkit

namespace ViteEsToolkit

theorem mapParse_isOk (l : List Str) (h : ∀ t ∈ l, ∃ ni, parseNamedImport t = .ok ni) :
    ∃ L, mapParse l = .ok L := by
  induction l with
  | nil => exact ⟨[], rfl⟩
  | cons t ts ih =>
    obtain ⟨ni, hni⟩ := h t (by simp)
    obtain ⟨L, hL⟩ := ih (fun x hx => h x (by simp [hx]))
    exact ⟨ni :: L, by simp [mapParse, hni, hL]⟩

theorem namedTokens_parse_isOk (raw : Str) :
    ∀ t ∈ namedTokens raw, ∃ ni, parseNamedImport t = .ok ni := by
  intro t ht
  simp only [namedTokens, List.mem_filter, List.mem_map] at ht
  obtain ⟨⟨s, _, rfl⟩, hne⟩ := ht
  rcases hjt : jsTrim s with _ | ⟨c, l⟩
  · rw [hjt] at hne; simp at hne
  · have hcw := jsTrim_head_false s c l hjt
    have hc : c ≠ ' ' := by
      intro h
      rw [h] at hcw
      simp [isJsWs] at hcw
    exact parseNamedImport_isOk_of_ne_space c l hc

theorem namedImportsHandler_isOk (supported : List Str) (matched raw : Str) :
    ∃ x, namedImportsHandler supported matched raw = .ok x := by
  obtain ⟨L, hL⟩ := mapParse_isOk (namedTokens raw) (namedTokens_parse_isOk raw)
  unfold namedImportsHandler
  rw [hL]
  dsimp only
  split
  · split
    · exact ⟨_, rfl⟩
    · exact ⟨_, rfl⟩
  · exact ⟨_, rfl⟩

theorem scan2F_isOk (supported : List Str) (fuel : Nat) (s : Str) :
    ∃ x, scan2F supported fuel s = .ok x := by
  induction fuel generalizing s with
  | zero => exact ⟨(s, []), rfl⟩
  | succ n ih =>
    cases s with
    | nil => exact ⟨([], []), rfl⟩
    | cons c rest =>
      rw [scan2F]
      cases hm : matchNamedImportsAt (c :: rest) with
      | none =>
        obtain ⟨⟨out, ws⟩, h2⟩ := ih rest
        exact ⟨(c :: out, ws), by rw [h2]⟩
      | some pr =>
        obtain ⟨raw, after⟩ := pr
        obtain ⟨⟨repl, ws⟩, h1⟩ := namedImportsHandler_isOk supported
          ((c :: rest).take ((c :: rest).length - after.length)) raw
        obtain ⟨⟨out, ws2⟩, h2⟩ := ih after
        refine ⟨(repl ++ out, ws ++ ws2), ?_⟩
        dsimp only
        rw [h1]
        dsimp only
        rw [h2]

theorem transform_isOk (supported : List String) (src : String) :
    ∃ r, transform supported src = .ok r := by
  unfold transform
  split
  · dsimp only
    rcases hp1 : pass1 (supported.map String.data) src.data with ⟨s1, w1⟩
    obtain ⟨⟨s2, w2⟩, h2⟩ := scan2F_isOk (supported.map String.data) s1.length s1
    have hp2 : pass2 (supported.map String.data) s1 = .ok (s2, w2) := h2
    dsimp only
    rw [hp2]
    exact ⟨_, rfl⟩
  · exact ⟨(none, []), rfl⟩

end ViteEsToolkit

namespace ViteEsToolkit

theorem splitAs_single (s : Str) : ∀ x, splitAs s = [x] → s = x := by
  induction s using splitAs.induct with
  | case1 =>
    intro x h
    simp [splitAs] at h
    exact h.symm
  | case2 rest ih =>
    intro x h
    simp only [splitAs] at h
    injection h with h1 h2
    exact absurd h2 (splitAs_ne_nil rest)
  | case3 a b hns hh tt hm ih =>
    intro x h
    rw [splitAs_cons_eq a b (fun rest h1 h2 => hns rest h1 h2), hm] at h
    injection h with h1 h2
    subst h2
    rw [← h1, ih hh hm]
  | case4 a b hns hm ih =>
    intro x h
    exact absurd hm (splitAs_ne_nil b)

end ViteEsToolkit

namespace ViteEsToolkit

theorem splitAs_decomp (s : Str) : ∀ (x y : Str) (r : List Str),
    splitAs s = x :: y :: r → ∃ u, s = x ++ " as ".data ++ u ∧ splitAs u = y :: r := by
  induction s using splitAs.induct with
  | case1 =>
    intro x y r h
    simp [splitAs] at h
  | case2 rest ih =>
    intro x y r h
    simp only [splitAs] at h
    injection h with h1 h2
    exact ⟨rest, by rw [← h1]; rfl, h2⟩
  | case3 a b hns hh tt hm ih =>
    intro x y r h
    rw [splitAs_cons_eq a b (fun rest h1 h2 => hns rest h1 h2), hm] at h
    injection h with h1 h2
    subst h2
    obtain ⟨u, hu1, hu2⟩ := ih hh y r hm
    exact ⟨u, by rw [← h1, hu1]; rfl, hu2⟩
  | case4 a b hns hm ih =>
    intro x y r h
    exact absurd hm (splitAs_ne_nil b)

theorem splitAs_of_not_substr (s : Str) (h : isSubstr " as ".data s = false) :
    splitAs s = [s] := by
  induction s using splitAs.induct with
  | case1 => rfl
  | case2 rest ih =>
    exfalso
    simp [isSubstr, isPre] at h
  | case3 a b hns hh tt hm ih =>
    have hb : isSubstr " as ".data b = false := by
      simp only [isSubstr, Bool.or_eq_false_iff] at h
      exact h.2
    have hsb : splitAs b = [b] := ih hb
    rw [splitAs_cons_eq a b (fun rest h1 h2 => hns rest h1 h2), hsb]
  | case4 a b hns hm ih =>
    exact absurd hm (splitAs_ne_nil b)

end ViteEsToolkit

namespace ViteEsToolkit

theorem parseNamedImport_no_sep (t : Str) (hne : t ≠ [])
    (hno : isSubstr " as ".data t = false) :
    parseNamedImport t = .ok ⟨t, t⟩ := by
  unfold parseNamedImport
  rw [splitAs_of_not_substr t hno]
  simp [hne]

theorem parseNamedImport_two (t X Y : Str) (r : List Str) (hX : X ≠ [])
    (hsp : splitAs t = X :: Y :: r) :
    parseNamedImport t = .ok ⟨X, if Y.isEmpty then X else Y⟩ := by
  unfold parseNamedImport
  rw [hsp]
  simp [hX]

theorem roundtrip_no_sep (t : Str) (hne : t ≠ [])
    (hno : isSubstr " as ".data t = false) :
    (parseNamedImport t).map renderNamedImport = .ok t := by
  rw [parseNamedImport_no_sep t hne hno]
  simp [Except.map, renderNamedImport]

theorem roundtrip_two (t X Y : Str) (hX : X ≠ []) (hY : Y ≠ []) (hXY : X ≠ Y)
    (hsp : splitAs t = [X, Y]) :
    (parseNamedImport t).map renderNamedImport = .ok t := by
  obtain ⟨u, ht, hu⟩ := splitAs_decomp t X Y [] hsp
  have huY : u = Y := splitAs_single u Y hu
  rw [huY] at ht
  rw [parseNamedImport_two t X Y [] hX hsp]
  simp only [Except.map]
  rw [if_neg (fun hh => hY (List.isEmpty_iff.mp hh))]
  simp only [renderNamedImport]
  rw [if_neg hXY, ht]

end ViteEsToolkit

namespace ViteEsToolkit

/-- Case analysis of the transform return value: without the trigger
substring the call is a silent no-op; with it, the result is a rewritten
code string together with the `null` source-map marker. -/
theorem transform_cases (supported : List String) (src : String) :
    (isSubstr "lodash".data src.data = false ∧ transform supported src = .ok (none, [])) ∨
    (isSubstr "lodash".data src.data = true ∧ ∃ code warns,
      transform supported src = .ok (some { code := code, map := none }, warns)) := by
  by_cases hsub : isSubstr "lodash".data src.data = true
  · refine .inr ⟨hsub, ?_⟩
    unfold transform
    rw [if_pos hsub]
    dsimp only
    rcases hp1 : pass1 (supported.map String.data) src.data with ⟨s1, w1⟩
    obtain ⟨⟨s2, w2⟩, h2⟩ := scan2F_isOk (supported.map String.data) s1.length s1
    have hp2 : pass2 (supported.map String.data) s1 = .ok (s2, w2) := h2
    dsimp only
    rw [hp2]
    exact ⟨_, _, rfl⟩
  · rw [Bool.not_eq_true] at hsub
    refine .inl ⟨hsub, ?_⟩
    unfold transform
    rw [if_neg (by simp [hsub])]

end ViteEsToolkit

namespace ViteEsToolkit

/-!
## Claim theorems
-/

/-- C3: for every input string, the transform returns the explicit
"no transformation" signal (`none`) and emits no warnings if and only if
the literal `lodash` does not occur as a substring of the input; otherwise
it returns a rewritten-code result carrying the `null` (`none`) source-map
marker. -/
theorem transform_return_contract (supported : List String) (src : String) :
    (transform supported src = .ok (none, []) ↔ isSubstr "lodash".data src.data = false)
    ∧ (isSubstr "lodash".data src.data = true →
        ∃ code warns, transform supported src =
          .ok (some { code := code, map := none }, warns)) := by
  rcases transform_cases supported src with ⟨hf, ht⟩ | ⟨htr, code, warns, heq⟩
  · refine ⟨⟨fun _ => hf, fun _ => ht⟩, fun hcontra => ?_⟩
    rw [hf] at hcontra
    cases hcontra
  · constructor
    · constructor
      · intro h
        rw [heq] at h
        injection h with h1
        injection h1 with h2 _
        cases h2
      · intro h
        rw [htr] at h
        cases h
    · exact fun _ => ⟨code, warns, heq⟩

/-- C3 witness: at a concrete input containing `lodash`, the hypothesis of
the second conjunct holds and the transform returns a rewritten result. -/
theorem transform_return_contract_witness :
    isSubstr "lodash".data "import \x7b isEqual \x7d from 'lodash';".data = true ∧
    ∃ code warns, transform ["isEqual"] "import \x7b isEqual \x7d from 'lodash';" =
      .ok (some { code := code, map := none }, warns) :=
  ⟨by decide, (transform_return_contract ["isEqual"]
      "import \x7b isEqual \x7d from 'lodash';").2 (by decide)⟩

/-- C9: the transform is a pure function of the source text and the
supported-function set: the `fileIdentifier` argument of the plugin's
`transform` method is not used in its logic, so two calls with the same
source and supported set agree for any two identifiers (and the method is
exactly the pure `transform` function, so earlier invocations cannot
affect it). -/
theorem transform_ignores_fileIdentifier (supported : List String)
    (src id1 id2 : String) :
    (viteEsToolkitPlugin supported).transform src id1 =
      (viteEsToolkitPlugin supported).transform src id2 ∧
    (viteEsToolkitPlugin supported).transform src id1 = transform supported src :=
  ⟨rfl, rfl⟩

/-- C10: the transform never raises the `Invalid named import` parsing
error: every token handed to `parseNamedImport` by the named-imports pass
is trimmed and non-empty, so the empty-actual-name branch is unreachable
and both the named-imports callback and the whole transform always return
successfully. -/
theorem transform_total :
    (∀ (supported : List Str) (matched raw : Str),
      ∃ x, namedImportsHandler supported matched raw = .ok x)
    ∧ (∀ (supported : List String) (src : String),
        ∃ r, transform supported src = .ok r) :=
  ⟨namedImportsHandler_isOk, transform_isOk⟩

end ViteEsToolkit

namespace ViteEsToolkit

/-- C6 counterexample: the round-trip claim fails as stated for rename
tokens.  For the token `isEqual as isEqual` (the form `X as Y` with
`X = Y`) rendering the parsed result yields the plain `isEqual`, not the
original token byte-for-byte; and for `x as as as c`, which is
`X as Y` for `X = "x as"` and `Y = "as c"` (neither containing `' as '`),
rendering yields `x as as`. -/
theorem render_parse_roundtrip_cex :
    ((parseNamedImport "isEqual as isEqual".data).map renderNamedImport =
        .ok "isEqual".data ∧
      "isEqual".data ≠ "isEqual as isEqual".data) ∧
    ("x as as as c".data = "x as".data ++ " as ".data ++ "as c".data ∧
      (parseNamedImport "x as as as c".data).map renderNamedImport =
        .ok "x as as".data ∧
      "x as as".data ≠ "x as as as c".data) := by
  decide

/-- C6 (amended): rendering a parsed named-import token reproduces the
token byte-for-byte in exactly these cases: the token is non-empty and
contains no occurrence of `' as '` (no rename clause), or the token splits
on `' as '` into exactly two segments `X` and `Y` that are both non-empty
and distinct.  (When `X = Y` the render collapses to the plain `X`, and a
token with several `' as '` occurrences need not round-trip.) -/
theorem render_parse_roundtrip_amended :
    (∀ t : Str, t ≠ [] → isSubstr " as ".data t = false →
      (parseNamedImport t).map renderNamedImport = .ok t) ∧
    (∀ t X Y : Str, splitAs t = [X, Y] → X ≠ [] → Y ≠ [] → X ≠ Y →
      (parseNamedImport t).map renderNamedImport = .ok t) :=
  ⟨fun t h1 h2 => roundtrip_no_sep t h1 h2,
   fun t X Y hsp hX hY hXY => roundtrip_two t X Y hX hY hXY hsp⟩

/-- C6 witness: both amended cases applied at concrete tokens. -/
theorem render_parse_roundtrip_amended_witness :
    (parseNamedImport "isEqual".data).map renderNamedImport = .ok "isEqual".data ∧
    (parseNamedImport "isEqual as lodashIsEqual".data).map renderNamedImport =
      .ok "isEqual as lodashIsEqual".data :=
  ⟨render_parse_roundtrip_amended.1 "isEqual".data (by decide) (by decide),
   render_parse_roundtrip_amended.2 "isEqual as lodashIsEqual".data
     "isEqual".data "lodashIsEqual".data (by decide) (by decide) (by decide) (by decide)⟩

/-- C7 counterexample: the claim that the right side of the `' as '` split,
when present, becomes `customName` fails for the token `x as `: the right
side is present and empty, yet `customName` is set to `x` (the
`customName || actualName` default), not to the empty right side. -/
theorem parseNamedImport_right_empty_cex :
    splitAs "x as ".data = ["x".data, ([] : Str)] ∧
    parseNamedImport "x as ".data = .ok ⟨"x".data, "x".data⟩ ∧
    "x".data ≠ ([] : Str) := by
  decide

/-- C7 (amended): parsing splits the token on the literal `' as '`; the
first segment becomes `actualName`; the second segment, when present and
non-empty, becomes `customName`; when it is absent or empty, `customName`
defaults to `actualName`; and parsing fails with the
`Invalid named import` error exactly when the first segment is empty. -/
theorem parseNamedImport_amended :
    (∀ t : Str, t ≠ [] → isSubstr " as ".data t = false →
      parseNamedImport t = .ok ⟨t, t⟩) ∧
    (∀ (t X Y : Str) (r : List Str), splitAs t = X :: Y :: r → X ≠ [] → Y ≠ [] →
      parseNamedImport t = .ok ⟨X, Y⟩) ∧
    (∀ (t X : Str) (r : List Str), splitAs t = X :: [] :: r → X ≠ [] →
      parseNamedImport t = .ok ⟨X, X⟩) ∧
    (∀ t : Str, (splitAs t).headD [] = [] ↔
      parseNamedImport t = .error "Invalid named import") := by
  refine ⟨fun t h1 h2 => parseNamedImport_no_sep t h1 h2, ?_, ?_, ?_⟩
  · intro t X Y r hsp hX hY
    rw [parseNamedImport_two t X Y r hX hsp,
      if_neg (fun hh => hY (List.isEmpty_iff.mp hh))]
  · intro t X r hsp hX
    rw [parseNamedImport_two t X [] r hX hsp]
    rfl
  · intro t
    unfold parseNamedImport
    constructor
    · intro h
      rw [if_pos (by simpa [List.isEmpty_iff] using h)]
    · intro h
      by_contra hne
      rw [if_neg (by simpa [List.isEmpty_iff] using hne)] at h
      cases h

/-- C7 witness: each amended case applied at a concrete token. -/
theorem parseNamedImport_amended_witness :
    parseNamedImport "isEqual".data = .ok ⟨"isEqual".data, "isEqual".data⟩ ∧
    parseNamedImport "a as b".data = .ok ⟨"a".data, "b".data⟩ ∧
    parseNamedImport "x as ".data = .ok ⟨"x".data, "x".data⟩ ∧
    parseNamedImport " as b".data = .error "Invalid named import" :=
  ⟨parseNamedImport_amended.1 "isEqual".data (by decide) (by decide),
   parseNamedImport_amended.2.1 "a as b".data "a".data "b".data [] (by decide)
     (by decide) (by decide),
   parseNamedImport_amended.2.2.1 "x as ".data "x".data [] (by decide) (by decide),
   (parseNamedImport_amended.2.2.2 " as b".data).mp (by decide)⟩

end ViteEsToolkit

namespace ViteEsToolkit

theorem bnot_isEmpty_of_ne_nil {α : Type} {l : List α} (h : l ≠ []) :
    (!l.isEmpty) = true := by
  cases l
  · exact absurd rfl h
  · rfl

theorem not_isEmpty_true_of_ne_nil {α : Type} {l : List α} (h : l ≠ []) :
    ¬ l.isEmpty = true := by
  cases l
  · exact absurd rfl h
  · simp

/-- C1: for every namespace-default import of a name from `lodash`, when
the name-scoped usage scan finds at least one usage and every used symbol
is supported, the callback replaces the import statement with the
namespace-import rendering `import \x7b * as <Name> \x7d from 'es-toolkit/compat'`
of the replacement library, emitting no warning; in particular
`import _ from 'lodash'; _.isEqual(1,1);` with `isEqual` supported has
its import statement so replaced with the usage text untouched. -/
theorem defaultImport_supported_replaced :
    (∀ (supported : List Str) (ctx matched name : Str),
      findUsages name ctx ≠ [] →
      (∀ u ∈ (findUsages name ctx).map usedFunctionOf,
        isSupportedFunction supported u = true) →
      defaultImportHandler supported ctx matched name =
        ("import \x7b * as ".data ++ name ++ " \x7d from 'es-toolkit/compat'".data, [])) ∧
    transform ["isEqual"] "import _ from 'lodash'; _.isEqual(1,1);" =
      .ok (some { code := "import \x7b * as _ \x7d from 'es-toolkit/compat'; _.isEqual(1,1);",
                  map := none }, []) := by
  constructor
  · intro supported ctx matched name hus hsup
    unfold defaultImportHandler
    rw [if_neg (not_isEmpty_true_of_ne_nil hus)]
    dsimp only
    have hfil : ((findUsages name ctx).map usedFunctionOf).filter
        (isUnsupportedFunction supported) = [] := by
      rw [List.filter_eq_nil_iff]
      intro u hu
      simp [isUnsupportedFunction, hsup u hu]
    rw [hfil, if_neg (by decide)]
  · decide

/-- C1 witness: the general part applied at the Scenario 1 input. -/
theorem defaultImport_supported_replaced_witness :
    findUsages "_".data "import _ from 'lodash'; _.isEqual(1,1);".data ≠ [] ∧
    defaultImportHandler ["isEqual".data]
      "import _ from 'lodash'; _.isEqual(1,1);".data
      "import _ from 'lodash'".data "_".data =
      ("import \x7b * as ".data ++ "_".data ++ " \x7d from 'es-toolkit/compat'".data, []) :=
  ⟨by decide,
   defaultImport_supported_replaced.1 ["isEqual".data]
     "import _ from 'lodash'; _.isEqual(1,1);".data
     "import _ from 'lodash'".data "_".data (by decide) (by decide)⟩

end ViteEsToolkit

namespace ViteEsToolkit

/-- C5: for every namespace-default import of a name from `lodash`: when
the name-scoped usage scan finds zero usages the callback returns the
matched statement unchanged with no warning; and when any used symbol is
unsupported it returns the matched statement unchanged and warns once,
listing all unsupported symbols found for that binding; in particular
`import _ from 'lodash'; _.unknownFn();` with `unknownFn` unsupported is
returned identical to the input with the single warning
`Unsupported lodash function: unknownFn`. -/
theorem defaultImport_untouched_cases :
    (∀ (supported : List Str) (ctx matched name : Str),
      findUsages name ctx = [] →
      defaultImportHandler supported ctx matched name = (matched, [])) ∧
    (∀ (supported : List Str) (ctx matched name : Str),
      ((findUsages name ctx).map usedFunctionOf).filter
        (isUnsupportedFunction supported) ≠ [] →
      defaultImportHandler supported ctx matched name =
        (matched, [warnUnsupportedFunction
          (((findUsages name ctx).map usedFunctionOf).filter
            (isUnsupportedFunction supported))])) ∧
    transform ["isEqual"] "import _ from 'lodash'; _.unknownFn();" =
      .ok (some { code := "import _ from 'lodash'; _.unknownFn();", map := none },
           ["Unsupported lodash function: unknownFn"]) := by
  refine ⟨?_, ?_, by decide⟩
  · intro supported ctx matched name h
    simp [defaultImportHandler, h]
  · intro supported ctx matched name hfil
    have hus : findUsages name ctx ≠ [] := by
      intro h0
      rw [h0] at hfil
      exact hfil rfl
    unfold defaultImportHandler
    rw [if_neg (not_isEmpty_true_of_ne_nil hus)]
    dsimp only
    rw [if_pos (bnot_isEmpty_of_ne_nil hfil)]

/-- C5 witness: both unchanged cases applied at concrete inputs (a
dead import with zero usages, and the Scenario 2 input with an
unsupported usage). -/
theorem defaultImport_untouched_cases_witness :
    findUsages "_".data "import _ from 'lodash';".data = [] ∧
    defaultImportHandler ["isEqual".data] "import _ from 'lodash';".data
      "import _ from 'lodash'".data "_".data =
      ("import _ from 'lodash'".data, []) ∧
    defaultImportHandler ["isEqual".data]
      "import _ from 'lodash'; _.unknownFn();".data
      "import _ from 'lodash'".data "_".data =
      ("import _ from 'lodash'".data,
       [warnUnsupportedFunction
         (((findUsages "_".data "import _ from 'lodash'; _.unknownFn();".data).map
             usedFunctionOf).filter (isUnsupportedFunction ["isEqual".data]))]) :=
  ⟨by decide,
   defaultImport_untouched_cases.1 ["isEqual".data] "import _ from 'lodash';".data
     "import _ from 'lodash'".data "_".data (by decide),
   defaultImport_untouched_cases.2.1 ["isEqual".data]
     "import _ from 'lodash'; _.unknownFn();".data
     "import _ from 'lodash'".data "_".data (by decide)⟩

end ViteEsToolkit

namespace ViteEsToolkit

/-- C2: for every named-list import whose parsed tokens split into a
non-empty supported group and a non-empty unsupported group, the callback
replaces the statement with exactly two import statements — the
`es-toolkit/compat` import of the supported group first, then the
`lodash` import of the unsupported group, joined by a plain semicolon
with no added newline — and warns naming the unsupported symbols; in particular
`import \x7b isEqual, every \x7d from 'lodash';` with `isEqual` supported
and `every` unsupported has its matched statement replaced by
`import \x7b isEqual \x7d from 'es-toolkit/compat';import \x7b every \x7d from 'lodash'`
(the transform output keeps the input's trailing semicolon after the
replaced statement). -/
theorem namedImports_split_two_statements :
    (∀ (supported : List Str) (matched raw : Str) (L : List NamedImport),
      mapParse (namedTokens raw) = .ok L →
      L.filter (fun ni => isSupportedFunction supported ni.actualName) ≠ [] →
      L.filter (fun ni => isUnsupportedFunction supported ni.actualName) ≠ [] →
      namedImportsHandler supported matched raw = .ok
        ("import \x7b ".data ++
           renderNamedImports
             (L.filter (fun ni => isSupportedFunction supported ni.actualName)) ++
         " \x7d from 'es-toolkit/compat';import \x7b ".data ++
           renderNamedImports
             (L.filter (fun ni => isUnsupportedFunction supported ni.actualName)) ++
         " \x7d from 'lodash'".data,
         [warnUnsupportedFunction
           ((L.filter (fun ni => isUnsupportedFunction supported ni.actualName)).map
             (fun ni => ni.actualName))])) ∧
    transform ["isEqual"] "import \x7b isEqual, every \x7d from 'lodash';" =
      .ok (some
        { code := "import \x7b isEqual \x7d from 'es-toolkit/compat';import \x7b every \x7d from 'lodash';"
          map := none },
           ["Unsupported lodash function: every"]) := by
  constructor
  · intro supported matched raw L hmp hcur hunsup
    unfold namedImportsHandler
    rw [hmp]
    dsimp only
    rw [if_pos (bnot_isEmpty_of_ne_nil hunsup)]
    rw [if_neg (not_isEmpty_true_of_ne_nil hcur)]
  · decide

/-- C2 witness: the general part applied at the Scenario 3 capture. -/
theorem namedImports_split_two_statements_witness :
    mapParse (namedTokens "isEqual, every ".data) =
      .ok [⟨"isEqual".data, "isEqual".data⟩, ⟨"every".data, "every".data⟩] ∧
    namedImportsHandler ["isEqual".data]
      "import \x7b isEqual, every \x7d from 'lodash'".data "isEqual, every ".data =
      .ok ("import \x7b ".data ++
             renderNamedImports [⟨"isEqual".data, "isEqual".data⟩] ++
           " \x7d from 'es-toolkit/compat';import \x7b ".data ++
             renderNamedImports [⟨"every".data, "every".data⟩] ++
           " \x7d from 'lodash'".data,
           [warnUnsupportedFunction ["every".data]]) :=
  ⟨by decide,
   namedImports_split_two_statements.1 ["isEqual".data]
     "import \x7b isEqual, every \x7d from 'lodash'".data "isEqual, every ".data
     [⟨"isEqual".data, "isEqual".data⟩, ⟨"every".data, "every".data⟩]
     (by decide) (by decide) (by decide)⟩

end ViteEsToolkit

namespace ViteEsToolkit

/-- C8: the supported and unsupported groups of a named-list import are
`filter`s of the parsed token list and therefore preserve its original
relative order (they are sublists); rendered lists are joined in that
order, so when every symbol of a named-list import is supported the
rebuilt statement carries the full parsed list in original order; in
particular `import \x7b a, b, c \x7d from 'lodash';` with `a`, `b`, `c`
supported rewrites to `import \x7b a, b, c \x7d from 'es-toolkit/compat';`
with the relative order `[a, b, c]` preserved. -/
theorem namedImports_order_preserved :
    (∀ (supported : List Str) (L : List NamedImport),
      List.Sublist (L.filter (fun ni => isSupportedFunction supported ni.actualName)) L ∧
      List.Sublist (L.filter (fun ni => isUnsupportedFunction supported ni.actualName)) L) ∧
    (∀ (supported : List Str) (matched raw : Str) (L : List NamedImport),
      mapParse (namedTokens raw) = .ok L →
      (∀ ni ∈ L, isSupportedFunction supported ni.actualName = true) →
      namedImportsHandler supported matched raw = .ok
        ("import \x7b ".data ++ renderNamedImports L ++
         " \x7d from 'es-toolkit/compat'".data, [])) ∧
    transform ["a", "b", "c"] "import \x7b a, b, c \x7d from 'lodash';" =
      .ok (some
        { code := "import \x7b a, b, c \x7d from 'es-toolkit/compat';"
          map := none }, []) := by
  refine ⟨fun supported L => ⟨List.filter_sublist L, List.filter_sublist L⟩, ?_, by decide⟩
  intro supported matched raw L hmp hall
  unfold namedImportsHandler
  rw [hmp]
  dsimp only
  have hunsup : L.filter (fun ni => isUnsupportedFunction supported ni.actualName) = [] := by
    rw [List.filter_eq_nil_iff]
    intro ni hni
    simp [isUnsupportedFunction, hall ni hni]
  have hcur : L.filter (fun ni => isSupportedFunction supported ni.actualName) = L :=
    List.filter_eq_self.mpr hall
  rw [hunsup, hcur, if_neg (by decide)]

/-- C8 witness: the general part applied at the three-symbol capture. -/
theorem namedImports_order_preserved_witness :
    mapParse (namedTokens "a, b, c ".data) =
      .ok [⟨"a".data, "a".data⟩, ⟨"b".data, "b".data⟩, ⟨"c".data, "c".data⟩] ∧
    namedImportsHandler ["a".data, "b".data, "c".data]
      "import \x7b a, b, c \x7d from 'lodash'".data "a, b, c ".data = .ok
        ("import \x7b ".data ++
         renderNamedImports
           [⟨"a".data, "a".data⟩, ⟨"b".data, "b".data⟩, ⟨"c".data, "c".data⟩] ++
         " \x7d from 'es-toolkit/compat'".data, []) :=
  ⟨by decide,
   namedImports_order_preserved.2.1 ["a".data, "b".data, "c".data]
     "import \x7b a, b, c \x7d from 'lodash'".data "a, b, c ".data
     [⟨"a".data, "a".data⟩, ⟨"b".data, "b".data⟩, ⟨"c".data, "c".data⟩]
     (by decide) (by decide)⟩

/-- C4: for every single-function-default import `import <Name> from
'lodash/<symbol>'` (with an optional trailing `.js` tolerated by the
pattern): if the symbol is unsupported the callback warns and leaves the
statement unchanged; if it is supported it emits a named import from
`es-toolkit/compat`, with the rename notation `<symbol> as <Name>` exactly
when the bound name differs from the symbol name; in particular
`import lodashIsEqual from 'lodash/isEqual';` with `isEqual` supported
becomes `import \x7b isEqual as lodashIsEqual \x7d from 'es-toolkit/compat';`,
and the `.js` form `import isEqual from 'lodash/isEqual.js';` becomes the
plain `import \x7b isEqual \x7d from 'es-toolkit/compat';`. -/
theorem singleImport_policy :
    (∀ (supported : List Str) (matched custom actual : Str),
      isUnsupportedFunction supported actual = true →
      singleImportHandler supported matched custom actual =
        (matched, [warnUnsupportedFunction [actual]])) ∧
    (∀ (supported : List Str) (matched actual : Str),
      isSupportedFunction supported actual = true →
      singleImportHandler supported matched actual actual =
        ("import \x7b ".data ++ actual ++ " \x7d from 'es-toolkit/compat'".data, [])) ∧
    (∀ (supported : List Str) (matched custom actual : Str),
      isSupportedFunction supported actual = true → actual ≠ custom →
      singleImportHandler supported matched custom actual =
        ("import \x7b ".data ++ actual ++ " as ".data ++ custom ++
         " \x7d from 'es-toolkit/compat'".data, [])) ∧
    transform ["isEqual"] "import lodashIsEqual from 'lodash/isEqual';" =
      .ok (some
        { code := "import \x7b isEqual as lodashIsEqual \x7d from 'es-toolkit/compat';"
          map := none }, []) ∧
    transform ["isEqual"] "import isEqual from 'lodash/isEqual.js';" =
      .ok (some
        { code := "import \x7b isEqual \x7d from 'es-toolkit/compat';"
          map := none }, []) := by
  refine ⟨?_, ?_, ?_, by decide, by decide⟩
  · intro supported matched custom actual h
    unfold singleImportHandler
    rw [if_pos h]
  · intro supported matched actual h
    unfold singleImportHandler
    rw [if_neg (by simp [isUnsupportedFunction, h]), if_pos rfl]
  · intro supported matched custom actual h hne
    unfold singleImportHandler
    rw [if_neg (by simp [isUnsupportedFunction, h]), if_neg hne]

/-- C4 witness: the three policy cases applied at concrete inputs. -/
theorem singleImport_policy_witness :
    singleImportHandler ["isEqual".data] "import x from 'lodash/unknownFn'".data
      "x".data "unknownFn".data =
      ("import x from 'lodash/unknownFn'".data,
       [warnUnsupportedFunction ["unknownFn".data]]) ∧
    singleImportHandler ["isEqual".data] "import isEqual from 'lodash/isEqual'".data
      "isEqual".data "isEqual".data =
      ("import \x7b ".data ++ "isEqual".data ++
       " \x7d from 'es-toolkit/compat'".data, []) ∧
    singleImportHandler ["isEqual".data]
      "import lodashIsEqual from 'lodash/isEqual'".data
      "lodashIsEqual".data "isEqual".data =
      ("import \x7b ".data ++ "isEqual".data ++ " as ".data ++ "lodashIsEqual".data ++
       " \x7d from 'es-toolkit/compat'".data, []) :=
  ⟨singleImport_policy.1 ["isEqual".data] "import x from 'lodash/unknownFn'".data
     "x".data "unknownFn".data (by decide),
   singleImport_policy.2.1 ["isEqual".data] "import isEqual from 'lodash/isEqual'".data
     "isEqual".data (by decide),
   singleImport_policy.2.2.1 ["isEqual".data]
     "import lodashIsEqual from 'lodash/isEqual'".data
     "lodashIsEqual".data "isEqual".data (by decide) (by decide)⟩

end ViteEsToolkit
